import Mathlib

/-!
Shallow embedding of the Dashboard Query Layer (src/app/lib/data.ts).

Each fetch function talks to a query client that returns either a result
payload or an error value, never both.  We model a read result as
Except String payload; the payload types mirror the row shapes selected by
each query.  Joined relations can arrive either as a single object (possibly
null) or as an array, mirrored by the JoinVal type; the code normalizes with
Array.isArray(x) ? x[0] : x, mirrored by JoinVal.norm.  The currency
formatter lives in a separate module of the repository and is treated as an
abstract parameter fmt : Int -> String, per its stated contract.  JavaScript
string operations toLowerCase and includes are modelled over Lean strings by
jsToLower and jsIncludes.
-/

namespace DashboardData

/-- Model of JavaScript String.prototype.toLowerCase, character by character. -/
def jsToLower (s : String) : String :=
  String.mk (s.data.map Char.toLower)

/-- Bool test that q is a leading segment of s (over character lists). -/
def isPrefOf : List Char → List Char → Bool
  | [], _ => true
  | _ :: _, [] => false
  | a :: as, b :: bs => a == b && isPrefOf as bs

/-- Bool test that q occurs contiguously inside s (over character lists). -/
def hasSub (q : List Char) : List Char → Bool
  | [] => isPrefOf q []
  | c :: s => isPrefOf q (c :: s) || hasSub q s

/-- Model of JavaScript s.includes(q): q occurs contiguously inside s. -/
def jsIncludes (s q : String) : Bool :=
  hasSub q.toList s.toList

/-- Prop version of the substring relation: q occurs contiguously inside s. -/
def SubStr (q s : String) : Prop :=
  ∃ l r, s.toList = l ++ q.toList ++ r

/-- A joined relation as delivered by the query client: either a single
record (possibly null) or an array of records. -/
inductive JoinVal (α : Type) where
  | one (c : Option α)
  | many (cs : List α)
deriving DecidableEq

/-- Normalization used throughout data.ts:
Array.isArray(x) ? x[0] : x, where x[0] of an empty array is undefined. -/
def JoinVal.norm {α : Type} : JoinVal α → Option α
  | .one c => c
  | .many cs => cs.head?

/-- Customer columns selected by fetchLatestInvoices. -/
structure Customer where
  id : String
  name : String
  image_url : String
  email : String
deriving DecidableEq

/-- Row shape returned by the invoices read in fetchLatestInvoices. -/
structure LatestRow where
  id : String
  amount : Int
  date : String
  customer_id : JoinVal Customer
deriving DecidableEq

/-- The customer identifier of a row after join normalization:
customer?.id in the source. -/
def rowCustomerId (invoice : LatestRow) : Option String :=
  (invoice.customer_id.norm).map Customer.id

/-- The dedupe loop of fetchLatestInvoices: seen is the Set of customer ids
already kept; a row is kept when its customer id is truthy (present and
nonempty) and not yet seen. -/
def dedupeLoop : List LatestRow → List String → List LatestRow
  | [], _ => []
  | invoice :: rest, seen =>
    match rowCustomerId invoice with
    | some cid =>
      if (cid != "") && !(seen.contains cid) then
        invoice :: dedupeLoop rest (cid :: seen)
      else
        dedupeLoop rest seen
    | none => dedupeLoop rest seen

/-- The latestByCustomer list built by fetchLatestInvoices. -/
def latestByCustomer (rows : List LatestRow) : List LatestRow :=
  dedupeLoop rows []

/-- Output row shape of fetchLatestInvoices. -/
structure LatestInvoiceOut where
  id : String
  amount : String
  name : String
  image_url : String
  email : String
deriving DecidableEq

/-- The display mapping of fetchLatestInvoices, with missing customer
fields defaulting to the empty string. -/
def shapeLatest (fmt : Int → String) (invoice : LatestRow) : LatestInvoiceOut :=
  let customer := invoice.customer_id.norm
  { id := invoice.id
    amount := fmt invoice.amount
    name := (customer.map Customer.name).getD ""
    image_url := (customer.map Customer.image_url).getD ""
    email := (customer.map Customer.email).getD "" }

/-- fetchLatestInvoices: raises the generic message on a read error,
otherwise deduplicates by customer and shapes the rows. -/
def fetchLatestInvoices (fmt : Int → String) (res : Except String (List LatestRow)) :
    Except String (List LatestInvoiceOut) :=
  match res with
  | .error _ => .error "Failed to fetch the latest invoices."
  | .ok data => .ok ((latestByCustomer data).map (shapeLatest fmt))

/-- Row shape read by fetchCardData from the invoices table. -/
structure CardInvoice where
  amount : Int
  status : String
deriving DecidableEq

/-- Aggregates returned by fetchCardData. -/
structure CardData where
  totalPaidInvoices : Int
  totalPendingInvoices : Int
  numberOfInvoices : Nat
  numberOfCustomers : Nat
deriving DecidableEq

/-- The accumulation loop of fetchCardData over (totalPaid, totalPending). -/
def cardLoop : List CardInvoice → Int × Int → Int × Int
  | [], acc => acc
  | invoice :: rest, (paid, pending) =>
    if invoice.status == "paid" then
      cardLoop rest (paid + invoice.amount, pending)
    else if invoice.status == "pending" then
      cardLoop rest (paid, pending + invoice.amount)
    else
      cardLoop rest (paid, pending)

/-- The pure aggregation of fetchCardData: data may be null (all invoice
aggregates stay 0), and the customer head count defaults to 0 when null. -/
def cardSummary (data : Option (List CardInvoice)) (numberOfCustomers : Option Nat) :
    CardData :=
  match data with
  | none =>
    { totalPaidInvoices := 0
      totalPendingInvoices := 0
      numberOfInvoices := 0
      numberOfCustomers := numberOfCustomers.getD 0 }
  | some d =>
    { totalPaidInvoices := (cardLoop d (0, 0)).1
      totalPendingInvoices := (cardLoop d (0, 0)).2
      numberOfInvoices := d.length
      numberOfCustomers := numberOfCustomers.getD 0 }

/-- fetchCardData: raises on either read error, otherwise aggregates. -/
def fetchCardData (invRes : Except String (Option (List CardInvoice)))
    (countRes : Except String (Option Nat)) : Except String CardData :=
  match invRes with
  | .error _ => .error "Failed to fetch card data."
  | .ok data =>
    match countRes with
    | .error _ => .error "Failed to fetch customer count."
    | .ok c => .ok (cardSummary data c)

/-- ITEMS_PER_PAGE from data.ts. -/
def ITEMS_PER_PAGE : Nat := 6

/-- The inclusive offset range requested by fetchFilteredInvoices:
from = (currentPage - 1) * ITEMS_PER_PAGE and to = from + ITEMS_PER_PAGE - 1. -/
def invoicesRange (currentPage : Int) : Int × Int :=
  ((currentPage - 1) * (ITEMS_PER_PAGE : Int),
   (currentPage - 1) * (ITEMS_PER_PAGE : Int) + (ITEMS_PER_PAGE : Int) - 1)

/-- Customer columns joined by fetchFilteredInvoices. -/
structure FilteredCustomer where
  name : String
  email : String
  image_url : String
deriving DecidableEq

/-- Raw row shape returned by the invoices read in fetchFilteredInvoices. -/
structure FilteredRaw where
  id : String
  amount : Int
  date : String
  status : String
  customers : JoinVal FilteredCustomer
deriving DecidableEq

/-- Flattened display row produced by fetchFilteredInvoices. -/
structure FlatInvoice where
  id : String
  amount : Int
  date : String
  status : String
  name : String
  email : String
  image_url : String
deriving DecidableEq

/-- The flattening map of fetchFilteredInvoices, with missing customer
fields defaulting to the empty string. -/
def flattenInvoice (invoice : FilteredRaw) : FlatInvoice :=
  let customer := invoice.customers.norm
  { id := invoice.id
    amount := invoice.amount
    date := invoice.date
    status := invoice.status
    name := (customer.map FilteredCustomer.name).getD ""
    email := (customer.map FilteredCustomer.email).getD ""
    image_url := (customer.map FilteredCustomer.image_url).getD "" }

/-- The client-side filter predicate of fetchFilteredInvoices, exactly as in
the source: only the email comparison lowercases the query; amount and date
are compared verbatim; status and name lowercase the field only. -/
def keepInvoice (query : String) (invoice : FlatInvoice) : Bool :=
  jsIncludes (jsToLower invoice.email) (jsToLower query) ||
  jsIncludes (toString invoice.amount) query ||
  jsIncludes invoice.date query ||
  jsIncludes (jsToLower invoice.status) query ||
  jsIncludes (jsToLower invoice.name) query

/-- The client-side stage of fetchFilteredInvoices: flatten, then filter. -/
def clientStage (query : String) (data : List FilteredRaw) : List FlatInvoice :=
  (data.map flattenInvoice).filter (keepInvoice query)

/-- fetchFilteredInvoices: raises on a read error, otherwise applies the
client-side stage to data, which defaults to the empty list when null. -/
def fetchFilteredInvoices (query : String)
    (res : Except String (Option (List FilteredRaw))) :
    Except String (List FlatInvoice) :=
  match res with
  | .error _ => .error "Failed to fetch invoices."
  | .ok data => .ok (clientStage query (data.getD []))

/-- Modelled from the spec and the claim wording, not from the source: the
fully case-insensitive variant of the client-side filter, lowercasing both
the query and every one of the five fields. -/
def specCiKeep (query : String) (invoice : FlatInvoice) : Bool :=
  jsIncludes (jsToLower invoice.email) (jsToLower query) ||
  jsIncludes (jsToLower (toString invoice.amount)) (jsToLower query) ||
  jsIncludes (jsToLower invoice.date) (jsToLower query) ||
  jsIncludes (jsToLower invoice.status) (jsToLower query) ||
  jsIncludes (jsToLower invoice.name) (jsToLower query)

/-- fetchInvoicesPages: raises on a read error, otherwise returns
Math.ceil(count / ITEMS_PER_PAGE) with count defaulting to 0 when null;
over natural counts the ceiling is (count + ITEMS_PER_PAGE - 1) / ITEMS_PER_PAGE. -/
def fetchInvoicesPages (res : Except String (Option Nat)) : Except String Nat :=
  match res with
  | .error _ => .error "Failed to fetch total number of invoices."
  | .ok count => .ok ((count.getD 0 + ITEMS_PER_PAGE - 1) / ITEMS_PER_PAGE)

/-- Row shape selected by fetchInvoiceById; the amount is a JavaScript
number, modelled as a rational so that the division by 100 is exact. -/
structure InvoiceByIdRow where
  id : String
  customer_id : String
  amount : ℚ
  status : String
deriving DecidableEq

/-- Outcome of the single-row read in fetchInvoiceById.  The query client
returns a payload or an error value, never both, and never throws for a
failed request: found is data set and error null; notFound is the no-row
outcome (data null, error set by single()); errValue is any other read
failure (data null, error set).  thrown models an exception raised outside
the data/error channel, the only case the try/catch block can intercept. -/
inductive SingleReadResult where
  | found (row : InvoiceByIdRow)
  | notFound
  | errValue (e : String)
  | thrown (e : String)
deriving DecidableEq

/-- fetchInvoiceById as written: it destructures only data and tests
if (!data) return null, so both the no-row outcome and a read failure
returned as an error value yield null; only a thrown exception reaches the
catch block that raises the generic message. -/
def fetchInvoiceById : SingleReadResult → Except String (Option InvoiceByIdRow)
  | .found row => .ok (some { row with amount := row.amount / 100 })
  | .notFound => .ok none
  | .errValue _ => .ok none
  | .thrown _ => .error "Failed to fetch invoice."

/-- Customer columns selected by fetchFilteredCustomers. -/
structure CustomerRow where
  id : String
  name : String
  email : String
  image_url : String
deriving DecidableEq

/-- Invoice columns selected by fetchFilteredCustomers. -/
structure CustomerInvoice where
  customer_id : String
  amount : Int
  status : String
deriving DecidableEq

/-- Aggregated output row of fetchFilteredCustomers. -/
structure CustomerAgg where
  id : String
  name : String
  email : String
  image_url : String
  total_invoices : Nat
  total_pending : String
  total_paid : String
deriving DecidableEq

/-- The per-customer aggregation of fetchFilteredCustomers: filter the
fetched invoices down to this customer, count them, and sum the pending and
paid amounts with reduce before formatting. -/
def aggregateCustomer (fmt : Int → String) (invoices : List CustomerInvoice)
    (customer : CustomerRow) : CustomerAgg :=
  let custInvoices := invoices.filter (fun inv => inv.customer_id == customer.id)
  let total_pending :=
    (custInvoices.filter (fun inv => inv.status == "pending")).foldl
      (fun sum inv => sum + inv.amount) 0
  let total_paid :=
    (custInvoices.filter (fun inv => inv.status == "paid")).foldl
      (fun sum inv => sum + inv.amount) 0
  { id := customer.id
    name := customer.name
    email := customer.email
    image_url := customer.image_url
    total_invoices := custInvoices.length
    total_pending := fmt total_pending
    total_paid := fmt total_paid }

/-- fetchFilteredCustomers: raises on either read error, otherwise maps the
per-customer aggregation over the matched customers. -/
def fetchFilteredCustomers (fmt : Int → String)
    (custRes : Except String (List CustomerRow))
    (invRes : Except String (List CustomerInvoice)) :
    Except String (List CustomerAgg) :=
  match custRes with
  | .error _ => .error "Failed to fetch customer table."
  | .ok customers =>
    match invRes with
    | .error _ => .error "Failed to fetch invoices for customers."
    | .ok invoices => .ok (customers.map (aggregateCustomer fmt invoices))

/-- Revenue row: period label and numeric value. -/
structure Revenue where
  month : String
  revenue : Int
deriving DecidableEq

/-- fetchRevenue: passthrough read that raises the generic message on error. -/
def fetchRevenue (res : Except String (List Revenue)) : Except String (List Revenue) :=
  match res with
  | .error _ => .error "Failed to fetch revenue data."
  | .ok data => .ok data

/-- Customer id and name pair returned by fetchCustomers. -/
structure CustomerField where
  id : String
  name : String
deriving DecidableEq

/-- fetchCustomers: passthrough read that raises the generic message on error. -/
def fetchCustomers (res : Except String (List CustomerField)) :
    Except String (List CustomerField) :=
  match res with
  | .error _ => .error "Failed to fetch all customers."
  | .ok data => .ok data

theorem isPrefOf_iff (q s : List Char) : isPrefOf q s = true ↔ ∃ r, s = q ++ r := by
  induction q generalizing s with
  | nil => simp [isPrefOf]
  | cons a as ih =>
    cases s with
    | nil =>
      simp [isPrefOf]
    | cons b bs =>
      simp only [isPrefOf, Bool.and_eq_true, beq_iff_eq, ih, List.cons_append,
        List.cons.injEq]
      constructor
      · rintro ⟨hab, r, hr⟩
        exact ⟨r, hab.symm, hr⟩
      · rintro ⟨r, hba, hr⟩
        exact ⟨hba.symm, r, hr⟩

theorem hasSub_iff (q s : List Char) : hasSub q s = true ↔ ∃ l r, s = l ++ q ++ r := by
  induction s with
  | nil =>
    simp only [hasSub, isPrefOf_iff]
    constructor
    · rintro ⟨r, hr⟩
      exact ⟨[], r, by simpa using hr⟩
    · rintro ⟨l, r, h⟩
      rcases List.append_eq_nil.mp (List.append_eq_nil.mp h.symm).1 with ⟨hl, hq⟩
      exact ⟨r, by simp [hq, (List.append_eq_nil.mp h.symm).2]⟩
  | cons c s ih =>
    simp only [hasSub, Bool.or_eq_true, isPrefOf_iff, ih]
    constructor
    · rintro (⟨r, hr⟩ | ⟨l, r, hr⟩)
      · exact ⟨[], r, by simpa using hr⟩
      · exact ⟨c :: l, r, by simp [hr]⟩
    · rintro ⟨l, r, h⟩
      cases l with
      | nil =>
        exact Or.inl ⟨r, by simpa using h⟩
      | cons c0 l0 =>
        rcases List.cons_eq_cons.mp (by simpa using h) with ⟨hc, hrest⟩
        exact Or.inr ⟨l0, r, by simpa [List.append_assoc] using hrest⟩

theorem jsIncludes_iff (s q : String) : jsIncludes s q = true ↔ SubStr q s := by
  simp [jsIncludes, hasSub_iff, SubStr]

theorem keepInvoice_iff (query : String) (invoice : FlatInvoice) :
    keepInvoice query invoice = true ↔
      (SubStr (jsToLower query) (jsToLower invoice.email) ∨
       SubStr query (toString invoice.amount) ∨
       SubStr query invoice.date ∨
       SubStr query (jsToLower invoice.status) ∨
       SubStr query (jsToLower invoice.name)) := by
  simp [keepInvoice, Bool.or_eq_true, jsIncludes_iff, or_assoc]

/-- C2 counterexample: the claim says matching is case-insensitive for every
one of the five fields, so the query PAID ought to keep a row whose status is
paid; the code keeps the query verbatim for the status comparison and drops
the row, even though the fully case-insensitive filter would keep it. -/
theorem client_filter_case_counterexample :
    specCiKeep "PAID"
        (flattenInvoice { id := "i1", amount := 1, date := "2024-01-01", status := "paid",
                          customers := .one
                            (some { name := "nn", email := "ee@x.y", image_url := "img" }) })
      = true ∧
    clientStage "PAID"
        [{ id := "i1", amount := 1, date := "2024-01-01", status := "paid",
           customers := .one
             (some { name := "nn", email := "ee@x.y", image_url := "img" }) }]
      = [] := by
  constructor
  · decide
  · decide

/-- C2 (amended): a row survives the client-side stage of
fetchFilteredInvoices exactly when the query occurs in the lowercased email
after lowercasing the query, or occurs verbatim in the amount rendered as a
decimal string, verbatim in the date string, verbatim in the lowercased
status, or verbatim in the lowercased name; only the email comparison
lowercases the query, so matching is fully case-insensitive for the email
field alone. -/
theorem client_filter_characterization (query : String) (data : List FilteredRaw)
    (invoice : FlatInvoice) :
    invoice ∈ clientStage query data ↔
      invoice ∈ data.map flattenInvoice ∧
        (SubStr (jsToLower query) (jsToLower invoice.email) ∨
         SubStr query (toString invoice.amount) ∨
         SubStr query invoice.date ∨
         SubStr query (jsToLower invoice.status) ∨
         SubStr query (jsToLower invoice.name)) := by
  rw [clientStage, List.mem_filter, keepInvoice_iff]

theorem dedupeLoop_keep (invoice : LatestRow) (rest : List LatestRow) (seen : List String)
    (cid : String) (h : rowCustomerId invoice = some cid)
    (hc : ((cid != "") && !(seen.contains cid)) = true) :
    dedupeLoop (invoice :: rest) seen = invoice :: dedupeLoop rest (cid :: seen) := by
  simp only [dedupeLoop, h]
  rw [if_pos hc]

theorem dedupeLoop_skip_some (invoice : LatestRow) (rest : List LatestRow)
    (seen : List String) (cid : String) (h : rowCustomerId invoice = some cid)
    (hc : ¬ ((cid != "") && !(seen.contains cid)) = true) :
    dedupeLoop (invoice :: rest) seen = dedupeLoop rest seen := by
  simp only [dedupeLoop, h]
  rw [if_neg hc]

theorem dedupeLoop_skip_none (invoice : LatestRow) (rest : List LatestRow)
    (seen : List String) (h : rowCustomerId invoice = none) :
    dedupeLoop (invoice :: rest) seen = dedupeLoop rest seen := by
  simp only [dedupeLoop, h]

theorem dedupeLoop_sublist (rows : List LatestRow) (seen : List String) :
    (dedupeLoop rows seen).Sublist rows := by
  induction rows generalizing seen with
  | nil => simp [dedupeLoop]
  | cons invoice rest ih =>
    cases h : rowCustomerId invoice with
    | some cid =>
      by_cases hc : ((cid != "") && !(seen.contains cid)) = true
      · rw [dedupeLoop_keep invoice rest seen cid h hc]
        exact (ih (cid :: seen)).cons₂ invoice
      · rw [dedupeLoop_skip_some invoice rest seen cid h hc]
        exact (ih seen).cons invoice
    | none =>
      rw [dedupeLoop_skip_none invoice rest seen h]
      exact (ih seen).cons invoice

theorem dedupeLoop_mem_cid (rows : List LatestRow) (seen : List String)
    (r : LatestRow) (hr : r ∈ dedupeLoop rows seen) :
    ∃ cid, rowCustomerId r = some cid ∧ cid ≠ "" ∧ cid ∉ seen := by
  induction rows generalizing seen with
  | nil => simp [dedupeLoop] at hr
  | cons invoice rest ih =>
    cases h : rowCustomerId invoice with
    | some cid =>
      by_cases hc : ((cid != "") && !(seen.contains cid)) = true
      · rw [dedupeLoop_keep invoice rest seen cid h hc] at hr
        rcases List.mem_cons.mp hr with hEq | hTail
        · subst hEq
          refine ⟨cid, h, ?_, ?_⟩
          · simpa using (Bool.and_eq_true .. |>.mp hc).1
          · simpa using (Bool.and_eq_true .. |>.mp hc).2
        · rcases ih (cid :: seen) hTail with ⟨cid2, h1, h2, h3⟩
          exact ⟨cid2, h1, h2, fun hmem => h3 (List.mem_cons_of_mem _ hmem)⟩
      · rw [dedupeLoop_skip_some invoice rest seen cid h hc] at hr
        exact ih seen hr
    | none =>
      rw [dedupeLoop_skip_none invoice rest seen h] at hr
      exact ih seen hr

theorem dedupeLoop_pairwise (rows : List LatestRow) (seen : List String) :
    (dedupeLoop rows seen).Pairwise (fun a b => rowCustomerId a ≠ rowCustomerId b) := by
  induction rows generalizing seen with
  | nil => simp [dedupeLoop]
  | cons invoice rest ih =>
    cases h : rowCustomerId invoice with
    | some cid =>
      by_cases hc : ((cid != "") && !(seen.contains cid)) = true
      · rw [dedupeLoop_keep invoice rest seen cid h hc]
        refine List.Pairwise.cons ?_ (ih (cid :: seen))
        intro b hb hEq
        rcases dedupeLoop_mem_cid rest (cid :: seen) b hb with ⟨cid2, h1, _, h3⟩
        rw [h, h1] at hEq
        exact h3 (by rw [← Option.some.injEq cid cid2 |>.mp hEq]; exact List.mem_cons_self cid seen)
      · rw [dedupeLoop_skip_some invoice rest seen cid h hc]
        exact ih seen
    | none =>
      rw [dedupeLoop_skip_none invoice rest seen h]
      exact ih seen

theorem dedupeLoop_filter_take (rows : List LatestRow) (seen : List String)
    (cid : String) (hne : cid ≠ "") (hseen : cid ∉ seen) :
    (dedupeLoop rows seen).filter (fun r => decide (rowCustomerId r = some cid)) =
      ((rows.filter (fun r => decide (rowCustomerId r = some cid))).take 1) := by
  induction rows generalizing seen with
  | nil => simp [dedupeLoop]
  | cons invoice rest ih =>
    cases h : rowCustomerId invoice with
    | some c =>
      by_cases hc : ((c != "") && !(seen.contains c)) = true
      · rw [dedupeLoop_keep invoice rest seen c h hc]
        by_cases hcc : c = cid
        · subst hcc
          have hfalse : ∀ b ∈ dedupeLoop rest (c :: seen),
              ¬ (rowCustomerId b = some c) := by
            intro b hb hEq
            rcases dedupeLoop_mem_cid rest (c :: seen) b hb with ⟨cid2, h1, _, h3⟩
            rw [h1] at hEq
            rw [Option.some.injEq cid2 c |>.mp hEq] at h3
            exact h3 (List.mem_cons_self c seen)
          rw [List.filter_cons_of_pos (by simp [h]),
            List.filter_cons_of_pos (by simp [h]),
            List.filter_eq_nil_iff.mpr (by intro b hb; simpa using hfalse b hb)]
          simp
        · rw [List.filter_cons_of_neg (by simp [h, hcc]),
            List.filter_cons_of_neg (by simp [h, hcc])]
          refine ih (c :: seen) ?_
          intro hmem
          rcases List.mem_cons.mp hmem with hEq | hTail
          · exact hcc hEq.symm
          · exact hseen hTail
      · rw [dedupeLoop_skip_some invoice rest seen c h hc]
        have hcc : c ≠ cid := by
          intro hEq
          subst hEq
          exact hc (by simp [bne_iff_ne, hne, hseen])
        rw [List.filter_cons_of_neg (by simp [h, hcc])]
        exact ih seen hseen
    | none =>
      rw [dedupeLoop_skip_none invoice rest seen h,
        List.filter_cons_of_neg (by simp [h])]
      exact ih seen hseen

/-- C3: for every backend row list, the dedupe stage of fetchLatestInvoices
keeps no two rows with the same customer identifier, is a sublist of its
input (so relative order is preserved), and for every nonempty customer
identifier it keeps exactly the first input row carrying that identifier;
the reader output is this list mapped through the display shaping. -/
theorem fetchLatestInvoices_dedupe (rows : List LatestRow) :
    (latestByCustomer rows).Pairwise (fun a b => rowCustomerId a ≠ rowCustomerId b) ∧
    (latestByCustomer rows).Sublist rows ∧
    (∀ cid : String, cid ≠ "" →
      (latestByCustomer rows).filter (fun r => decide (rowCustomerId r = some cid)) =
        ((rows.filter (fun r => decide (rowCustomerId r = some cid))).take 1)) ∧
    (∀ fmt : Int → String,
      fetchLatestInvoices fmt (.ok rows) = .ok ((latestByCustomer rows).map (shapeLatest fmt))) := by
  refine ⟨dedupeLoop_pairwise rows [], dedupeLoop_sublist rows [], ?_, fun fmt => rfl⟩
  intro cid hne
  exact dedupeLoop_filter_take rows [] cid hne (by simp)

/-- Witness for C3 at a concrete input: two invoices of customer c1 around
one of customer c2; only the first c1 invoice survives. -/
theorem fetchLatestInvoices_dedupe_witness :
    ((latestByCustomer
        [{ id := "a1", amount := 1, date := "d3",
           customer_id := .one (some { id := "c1", name := "A", image_url := "u", email := "e1" }) },
         { id := "a2", amount := 2, date := "d2",
           customer_id := .one (some { id := "c1", name := "A", image_url := "u", email := "e1" }) },
         { id := "a3", amount := 3, date := "d1",
           customer_id := .one (some { id := "c2", name := "B", image_url := "u", email := "e2" }) }]).filter
        (fun r => decide (rowCustomerId r = some "c1")) =
      (([{ id := "a1", amount := 1, date := "d3",
           customer_id := .one (some { id := "c1", name := "A", image_url := "u", email := "e1" }) },
         { id := "a2", amount := 2, date := "d2",
           customer_id := .one (some { id := "c1", name := "A", image_url := "u", email := "e1" }) },
         { id := "a3", amount := 3, date := "d1",
           customer_id := .one (some { id := "c2", name := "B", image_url := "u", email := "e2" }) }] :
          List LatestRow).filter
        (fun r => decide (rowCustomerId r = some "c1"))).take 1) :=
  ((fetchLatestInvoices_dedupe _).2.2.1 "c1" (by decide))

/-- C9: a row whose joined customer record is absent, or whose customer
identifier is missing or empty, never survives the dedupe stage of
fetchLatestInvoices, and a list made only of such rows produces the empty
output list. -/
theorem fetchLatestInvoices_drops_invalid (rows : List LatestRow) (r : LatestRow)
    (h : rowCustomerId r = none ∨ rowCustomerId r = some "") :
    r ∉ latestByCustomer rows ∧
      ((∀ x ∈ rows, rowCustomerId x = none ∨ rowCustomerId x = some "") →
        ∀ fmt : Int → String, fetchLatestInvoices fmt (.ok rows) = .ok []) := by
  constructor
  · intro hmem
    rcases dedupeLoop_mem_cid rows [] r hmem with ⟨cid, h1, h2, _⟩
    rcases h with h0 | h0
    · rw [h0] at h1
      exact Option.noConfusion h1
    · rw [h0] at h1
      exact h2 (Option.some.injEq .. |>.mp h1).symm
  · intro hall fmt
    have hnil : latestByCustomer rows = [] := by
      rw [List.eq_nil_iff_forall_not_mem]
      intro b hb
      rcases dedupeLoop_mem_cid rows [] b hb with ⟨cid, h1, h2, _⟩
      have hbrows : b ∈ rows := (dedupeLoop_sublist rows []).mem hb
      rcases hall b hbrows with h0 | h0
      · rw [h0] at h1
        exact Option.noConfusion h1
      · rw [h0] at h1
        exact h2 (Option.some.injEq .. |>.mp h1).symm
    rw [fetchLatestInvoices, hnil]
    rfl

/-- Witness for C9 at a concrete input: a row with a null joined customer
is dropped entirely. -/
theorem fetchLatestInvoices_drops_invalid_witness :
    ({ id := "a4", amount := 4, date := "d0", customer_id := .one none } : LatestRow) ∉
      latestByCustomer
        [{ id := "a4", amount := 4, date := "d0", customer_id := .one none },
         { id := "a3", amount := 3, date := "d1",
           customer_id := .one (some { id := "c2", name := "B", image_url := "u", email := "e2" }) }] :=
  by
  refine (fetchLatestInvoices_drops_invalid _ _ ?_).1
  exact Or.inl rfl

theorem cardLoop_eq (data : List CardInvoice) (paid pending : Int) :
    cardLoop data (paid, pending) =
      (paid + ((data.filter (fun i => i.status == "paid")).map CardInvoice.amount).sum,
       pending + ((data.filter (fun i => i.status == "pending")).map CardInvoice.amount).sum) := by
  induction data generalizing paid pending with
  | nil => simp [cardLoop]
  | cons invoice rest ih =>
    by_cases h1 : invoice.status = "paid"
    · simp only [cardLoop, h1]
      rw [if_pos (by simp)]
      rw [ih]
      rw [List.filter_cons_of_pos (by simp [h1]), List.filter_cons_of_neg (by simp [h1])]
      simp only [List.map_cons, List.sum_cons]
      rw [add_assoc]
    · by_cases h2 : invoice.status = "pending"
      · simp only [cardLoop, h2]
        rw [if_neg (by simp [h2]), if_pos (by simp)]
        rw [ih]
        rw [List.filter_cons_of_neg (by simp [h2]), List.filter_cons_of_pos (by simp [h2])]
        simp only [List.map_cons, List.sum_cons]
        rw [add_assoc]
      · simp only [cardLoop]
        rw [if_neg (by simp [h1]), if_neg (by simp [h2])]
        rw [ih]
        rw [List.filter_cons_of_neg (by simp [h1]), List.filter_cons_of_neg (by simp [h2])]

/-- C4: for every invoice list and head count, the card-summary reader sums
the paid amounts into totalPaidInvoices, the pending amounts into
totalPendingInvoices, counts every invoice, and turns a null customer head
count into 0; the reader returns exactly this aggregate on success. -/
theorem fetchCardData_totals (data : List CardInvoice) (count : Option Nat) :
    (cardSummary (some data) count).totalPaidInvoices =
      ((data.filter (fun i => i.status == "paid")).map CardInvoice.amount).sum ∧
    (cardSummary (some data) count).totalPendingInvoices =
      ((data.filter (fun i => i.status == "pending")).map CardInvoice.amount).sum ∧
    (cardSummary (some data) count).numberOfInvoices = data.length ∧
    (cardSummary (some data) none).numberOfCustomers = 0 ∧
    fetchCardData (.ok (some data)) (.ok count) = .ok (cardSummary (some data) count) := by
  refine ⟨?_, ?_, rfl, rfl, rfl⟩
  · show (cardLoop data (0, 0)).1 = _
    rw [cardLoop_eq]
    simp
  · show (cardLoop data (0, 0)).2 = _
    rw [cardLoop_eq]
    simp

theorem sum_paid_add_pending (data : List CardInvoice) :
    ((data.filter (fun i => i.status == "paid")).map CardInvoice.amount).sum +
      ((data.filter (fun i => i.status == "pending")).map CardInvoice.amount).sum =
    ((data.filter (fun i => i.status == "paid" || i.status == "pending")).map
        CardInvoice.amount).sum := by
  induction data with
  | nil => simp
  | cons invoice rest ih =>
    by_cases h1 : invoice.status = "paid"
    · rw [List.filter_cons_of_pos (by simp [h1]), List.filter_cons_of_neg (by simp [h1]),
        List.filter_cons_of_pos (by simp [h1])]
      simp only [List.map_cons, List.sum_cons]
      rw [← ih]
      ring
    · by_cases h2 : invoice.status = "pending"
      · rw [List.filter_cons_of_neg (by simp [h1]), List.filter_cons_of_pos (by simp [h2]),
          List.filter_cons_of_pos (by simp [h2])]
        simp only [List.map_cons, List.sum_cons]
        rw [← ih]
        ring
      · rw [List.filter_cons_of_neg (by simp [h1]), List.filter_cons_of_neg (by simp [h2]),
          List.filter_cons_of_neg (by simp [h1, h2])]
        exact ih

/-- C10: an invoice whose status is neither paid nor pending is counted in
numberOfInvoices but contributes to neither total: the two totals add up to
the sum over only the paid-or-pending rows, and at a concrete one-row input
with status refunded the totals add to 0, strictly below the 5 of the full
amount sum. -/
theorem fetchCardData_ignores_other_statuses (data : List CardInvoice) (count : Option Nat) :
    (cardSummary (some data) count).numberOfInvoices = data.length ∧
    (cardSummary (some data) count).totalPaidInvoices +
        (cardSummary (some data) count).totalPendingInvoices =
      ((data.filter (fun i => i.status == "paid" || i.status == "pending")).map
          CardInvoice.amount).sum ∧
    (cardSummary (some [{ amount := 5, status := "refunded" }]) none).numberOfInvoices = 1 ∧
    (cardSummary (some [{ amount := 5, status := "refunded" }]) none).totalPaidInvoices +
        (cardSummary (some [{ amount := 5, status := "refunded" }]) none).totalPendingInvoices
      < (([{ amount := 5, status := "refunded" }] : List CardInvoice).map CardInvoice.amount).sum := by
  refine ⟨rfl, ?_, rfl, by decide⟩
  show (cardLoop data (0, 0)).1 + (cardLoop data (0, 0)).2 = _
  rw [cardLoop_eq]
  simpa using sum_paid_add_pending data

theorem ceil_div_six (n : Nat) : ⌈(n : ℚ) / 6⌉ = ((n + 5) / 6 : ℕ) := by
  obtain ⟨k, hk⟩ : ∃ k : ℕ, (n + 5) / 6 = k := ⟨_, rfl⟩
  rw [hk]
  have h1 : n ≤ 6 * k := by omega
  have h2 : 6 * k < n + 6 := by omega
  rw [Int.ceil_eq_iff]
  constructor
  · rw [lt_div_iff₀ (by norm_num : (0 : ℚ) < 6)]
    have hq : ((6 * k : ℕ) : ℚ) < ((n + 6 : ℕ) : ℚ) := by exact_mod_cast h2
    push_cast at hq ⊢
    linarith
  · rw [div_le_iff₀ (by norm_num : (0 : ℚ) < 6)]
    have hq : ((n : ℕ) : ℚ) ≤ ((6 * k : ℕ) : ℚ) := by exact_mod_cast h1
    push_cast at hq ⊢
    linarith

/-- C6: the page-count reader returns the ceiling of count divided by 6:
0 for a null count, 0 at count 0, 1 on all of 1..6 and 2 on all of 7..12,
and in general the rational ceiling of n / 6. -/
theorem fetchInvoicesPages_ceiling :
    fetchInvoicesPages (.ok none) = .ok 0 ∧
    fetchInvoicesPages (.ok (some 0)) = .ok 0 ∧
    (∀ n : Nat, fetchInvoicesPages (.ok (some n)) = .ok (Int.toNat ⌈(n : ℚ) / 6⌉)) ∧
    (∀ n : Nat, 1 ≤ n → n ≤ 6 → fetchInvoicesPages (.ok (some n)) = .ok 1) ∧
    (∀ n : Nat, 7 ≤ n → n ≤ 12 → fetchInvoicesPages (.ok (some n)) = .ok 2) := by
  refine ⟨rfl, rfl, ?_, ?_, ?_⟩
  · intro n
    have h : (n + 6 - 1) / 6 = (n + 5) / 6 := by omega
    show Except.ok ((n + 6 - 1) / 6) = Except.ok (Int.toNat ⌈(n : ℚ) / 6⌉)
    rw [h, ceil_div_six n, Int.toNat_natCast]
  · intro n h1 h2
    have h : (n + 6 - 1) / 6 = 1 := by omega
    show Except.ok ((n + 6 - 1) / 6) = Except.ok 1
    rw [h]
  · intro n h1 h2
    have h : (n + 6 - 1) / 6 = 2 := by omega
    show Except.ok ((n + 6 - 1) / 6) = Except.ok 2
    rw [h]

/-- Witness for C6 at concrete counts inside both ranges. -/
theorem fetchInvoicesPages_ceiling_witness :
    fetchInvoicesPages (.ok (some 3)) = .ok 1 ∧ fetchInvoicesPages (.ok (some 9)) = .ok 2 :=
  ⟨fetchInvoicesPages_ceiling.2.2.2.1 3 (by decide) (by decide),
   fetchInvoicesPages_ceiling.2.2.2.2 9 (by decide) (by decide)⟩

/-- C8: for every 1-based page number, the offset range computed by
fetchFilteredInvoices is the inclusive interval from (page - 1) * 6 to
page * 6 - 1, an interval of exactly 6 offsets. -/
theorem fetchFilteredInvoices_range (p : Int) :
    invoicesRange p = ((p - 1) * 6, p * 6 - 1) ∧
    (invoicesRange p).2 - (invoicesRange p).1 + 1 = 6 := by
  constructor
  · show ((p - 1) * (6 : Int), (p - 1) * (6 : Int) + (6 : Int) - 1) = ((p - 1) * 6, p * 6 - 1)
    rw [Prod.mk.injEq]
    exact ⟨rfl, by ring⟩
  · show (p - 1) * (6 : Int) + (6 : Int) - 1 - ((p - 1) * (6 : Int)) + 1 = 6
    ring

/-- C1, failing path: when the single-row read of fetchInvoiceById comes
back as an error value (data null, error set), the function returns null
instead of raising the generic DataAccessError, because the code never
destructures the error field; only a thrown exception reaches its catch. -/
theorem fetchInvoiceById_error_value_null (e : String) :
    fetchInvoiceById (.errValue e) = .ok none ∧
    fetchInvoiceById (.thrown e) = .error "Failed to fetch invoice." :=
  ⟨rfl, rfl⟩

/-- C5: fetchInvoiceById returns null, not an error, when no row matches,
and on a found row returns the record with the amount divided by 100, so a
stored amount of 10000 minor units comes back as 100 major units. -/
theorem fetchInvoiceById_spec :
    fetchInvoiceById .notFound = .ok none ∧
    (∀ row : InvoiceByIdRow,
      fetchInvoiceById (.found row) = .ok (some { row with amount := row.amount / 100 })) ∧
    fetchInvoiceById
        (.found { id := "i", customer_id := "c", amount := 10000, status := "pending" }) =
      .ok (some { id := "i", customer_id := "c", amount := 100, status := "pending" }) := by
  refine ⟨rfl, fun row => rfl, ?_⟩
  have h : (10000 : ℚ) / 100 = 100 := by norm_num
  show Except.ok (some ({ id := "i", customer_id := "c",
                          amount := (10000 : ℚ) / 100,
                          status := "pending" } : InvoiceByIdRow)) = _
  rw [h]

theorem foldl_add_amount (l : List CustomerInvoice) (a : Int) :
    l.foldl (fun sum inv => sum + inv.amount) a = a + (l.map CustomerInvoice.amount).sum := by
  induction l generalizing a with
  | nil => simp
  | cons inv rest ih =>
    simp only [List.foldl_cons, List.map_cons, List.sum_cons, ih]
    ring

/-- C7: fetchFilteredCustomers maps every matched customer to an aggregate
whose total_invoices counts that customer's invoices, whose total_pending is
the formatted sum of that customer's pending amounts and whose total_paid
is the formatted sum of that customer's paid amounts; on the invoices
100 paid, 50 pending, 25 paid of one customer it yields 3, fmt 50, fmt 125. -/
theorem fetchFilteredCustomers_aggregation (fmt : Int → String)
    (customers : List CustomerRow) (invoices : List CustomerInvoice) :
    fetchFilteredCustomers fmt (.ok customers) (.ok invoices) =
      .ok (customers.map (aggregateCustomer fmt invoices)) ∧
    (∀ customer : CustomerRow,
      (aggregateCustomer fmt invoices customer).total_invoices =
        (invoices.filter (fun inv => inv.customer_id == customer.id)).length ∧
      (aggregateCustomer fmt invoices customer).total_pending =
        fmt ((((invoices.filter (fun inv => inv.customer_id == customer.id)).filter
            (fun inv => inv.status == "pending")).map CustomerInvoice.amount).sum) ∧
      (aggregateCustomer fmt invoices customer).total_paid =
        fmt ((((invoices.filter (fun inv => inv.customer_id == customer.id)).filter
            (fun inv => inv.status == "paid")).map CustomerInvoice.amount).sum)) ∧
    aggregateCustomer fmt
        [{ customer_id := "c", amount := 100, status := "paid" },
         { customer_id := "c", amount := 50, status := "pending" },
         { customer_id := "c", amount := 25, status := "paid" }]
        { id := "c", name := "n", email := "e", image_url := "u" } =
      { id := "c", name := "n", email := "e", image_url := "u",
        total_invoices := 3, total_pending := fmt 50, total_paid := fmt 125 } := by
  refine ⟨rfl, ?_, ?_⟩
  · intro customer
    refine ⟨rfl, ?_, ?_⟩
    · show fmt (List.foldl _ 0 _) = _
      rw [foldl_add_amount, zero_add]
    · show fmt (List.foldl _ 0 _) = _
      rw [foldl_add_amount, zero_add]
  · rfl

end DashboardData
